import Mathlib

/-!
Verification of the Ingredient Resolution & Aggregation Pipeline of
GroceryShoppingAssist (src/app.py).

The core deterministic logic is `aggregate_ingredients` (src/app.py lines
121-151): a per-bucket merge of duplicate ingredient names, keyed by the
Python-lowercased item string, concatenating quantity strings with " + ",
and emitting title-cased display names.  The surrounding "Generate Grocery
List" button handler (lines 199-279) is embedded as `generate_grocery_list`,
a function of the per-dish oracle results and the categorizer's reply.

Python string semantics: CPython's `str.lower` applies the full Unicode
lowercase mapping to every character, and `str.title` applies the full
titlecase mapping to the first cased character of each word and the full
lowercase mapping to the following cased characters; a full mapping takes one
character to a string (for example `'ß'.title()` is `'Ss'` and `'ﬁ'.title()`
is `'Fi'`).  The embedding (`pyLower`, `pyTitle`) uses per-character mappings
of type `Char → List Char`, exact for all of ASCII and for the further code
points U+00C9 `É`, U+00E9 `é`, U+00DF `ß` and U+FB01 `ﬁ`; any other code point
is carried through unchanged, which understates Python's mappings, so every
general casing theorem below either needs no casing facts at all or restricts
the item strings to ASCII (`AsciiStr`), where the model is exact; the
counterexamples evaluate only on the listed code points, where the model is
exact as well.
Python dicts preserve insertion order, so the two dict accumulators are
embedded as association lists where assignment to a fresh key appends and
assignment to a present key updates in place.
-/

namespace Grocery

/-- The full lowercase mapping of one character as CPython `str.lower` applies
it: ASCII `A`-`Z` shift down by 32, `É` becomes `é`, and of the further
modelled code points `é`, `ß`, `ﬁ` are their own lowercase; anything else is
carried through unchanged. -/
def pyLowerCharF (c : Char) : List Char :=
  if 65 ≤ c.toNat ∧ c.toNat ≤ 90 then [Char.ofNat (c.toNat + 32)]
  else if c = 'É' then ['é']
  else [c]

/-- The full titlecase mapping of one character as CPython `str.title` applies
it to the first cased character of a word: ASCII `a`-`z` shift up by 32, the
full mappings `'ß' ↦ "Ss"` and `'ﬁ' ↦ "Fi"` expand to two characters,
`é` becomes `É`, and anything else (including characters already in
titlecase) is carried through unchanged. -/
def pyTitleCharF (c : Char) : List Char :=
  if 97 ≤ c.toNat ∧ c.toNat ≤ 122 then [Char.ofNat (c.toNat - 32)]
  else if c = 'ß' then ['S', 's']
  else if c = 'ﬁ' then ['F', 'i']
  else if c = 'é' then ['É']
  else [c]

/-- Whether a character is cased for Python `str.title`'s word logic: the
ASCII letters and the modelled cased code points `É`, `é`, `ß`, `ﬁ`. -/
def isCasedChar (c : Char) : Bool :=
  (65 ≤ c.toNat && c.toNat ≤ 90) || (97 ≤ c.toNat && c.toNat ≤ 122) ||
    c = 'É' || c = 'é' || c = 'ß' || c = 'ﬁ'

/-- Python `str.lower`: `item['item'].lower()` in the source (line 133).
Every character is replaced by its full lowercase mapping. -/
def pyLower (s : String) : String :=
  String.mk (s.data.flatMap pyLowerCharF)

/-- Character stream of Python `str.title`: a cased character takes its full
titlecase mapping when the previous character is not cased and its full
lowercase mapping otherwise; other characters pass through.  The flag records
whether the previous original character was cased. -/
def pyTitleChars : Bool → List Char → List Char
  | _, [] => []
  | prev, c :: cs =>
    (if isCasedChar c then (if prev then pyLowerCharF c else pyTitleCharF c)
      else [c]) ++ pyTitleChars (isCasedChar c) cs

/-- Python `str.title`: `k.title()` in the source (line 148). -/
def pyTitle (s : String) : String :=
  String.mk (pyTitleChars false s.data)

/-- The strings on which the casing model is exact without reservation: every
character is an ASCII code point. -/
def AsciiStr (s : String) : Prop :=
  ∀ c ∈ s.data, c.toNat < 128

instance decAsciiStr (s : String) : Decidable (AsciiStr s) :=
  inferInstanceAs (Decidable (∀ c ∈ s.data, c.toNat < 128))

/-- One `{item, quantity}` object, both fields strings (`IngredientEntry`). -/
structure IngredientEntry where
  item : String
  quantity : String
deriving DecidableEq

/-- The dict handed to `aggregate_ingredients`: the code reads both buckets
with `categorized_ingredients.get(key, [])`, so either key may be absent. -/
structure CategorizedSet where
  pantry : Option (List IngredientEntry)
  perishables : Option (List IngredientEntry)
deriving DecidableEq

/-- The dict returned by `aggregate_ingredients` (line 151): both keys always
present, each a list of entries. -/
structure AggregatedSet where
  pantry : List IngredientEntry
  perishables : List IngredientEntry
deriving DecidableEq

/-- Python dict read `m[key]` as an ordered association list lookup. -/
def lookupAssoc : List (String × String) → String → Option String
  | [], _ => none
  | (k, v) :: rest, key => if k = key then some v else lookupAssoc rest key

/-- Python dict write `m[key] = q` when `key` is already present: the value is
replaced in place and the insertion order is unchanged. -/
def replaceAssoc : List (String × String) → String → String → List (String × String)
  | [], _, _ => []
  | (k, v) :: rest, key, q =>
    if k = key then (k, q) :: rest else (k, v) :: replaceAssoc rest key q

/-- One iteration of a bucket loop in `aggregate_ingredients` (lines 132-138):
`name = item['item'].lower()`; if `name` is a present key the stored value
becomes `old + " + " + quantity`, otherwise `name` is bound to the quantity,
appended at the end in insertion order. -/
def aggStep (m : List (String × String)) (e : IngredientEntry) :
    List (String × String) :=
  match lookupAssoc m (pyLower e.item) with
  | some v => replaceAssoc m (pyLower e.item) (v ++ " + " ++ e.quantity)
  | none => m ++ [(pyLower e.item, e.quantity)]

/-- The whole per-bucket computation of `aggregate_ingredients`: fold the loop
body over the entries, then rebuild a list of dicts with `k.title()` as the
display item (lines 129-149). -/
def aggregate_bucket (entries : List IngredientEntry) : List IngredientEntry :=
  (entries.foldl aggStep []).map fun kv =>
    { item := pyTitle kv.1, quantity := kv.2 }

/-- `aggregate_ingredients` (src/app.py lines 121-151): both buckets are
aggregated independently; a missing bucket key is read as `[]` via `.get`. -/
def aggregate_ingredients (c : CategorizedSet) : AggregatedSet :=
  { pantry := aggregate_bucket (c.pantry.getD [])
    perishables := aggregate_bucket (c.perishables.getD []) }

/-- The outcome of one press of the "Generate Grocery List" button, as far as
the pipeline is concerned: the warning branch for no valid dishes (line 207),
the "No ingredients could be extracted" error (line 276), the "Failed to
categorize" error (line 274), or the rendered grocery list (lines 247-271). -/
inductive RunOutcome where
  | emptyInput
  | noIngredients
  | categorizationFailed
  | done (result : AggregatedSet)
deriving DecidableEq

/-- What the external calls yielded for one valid dish: recipe resolution
returned a falsy result (line 238), ingredient extraction returned a falsy
result (line 236), or extraction returned a list of entries (line 234). -/
inductive DishResult where
  | recipeFailed
  | extractionFailed
  | extracted (entries : List IngredientEntry)
deriving DecidableEq

/-- Entries a dish adds to `total_ingredients_extracted`: the loop extends the
accumulator only when `ingredients_for_dish` is truthy, so a failed dish, and
also an extraction that returned the empty list, contributes nothing
(lines 234-239). -/
def dishContribution : DishResult → List IngredientEntry
  | .extracted es => if es.isEmpty then [] else es
  | _ => []

/-- `total_ingredients_extracted` after the per-dish loop: contributions in
dish order (lines 201, 227-241). -/
def accumulate : List DishResult → List IngredientEntry
  | [] => []
  | d :: ds => dishContribution d ++ accumulate ds

/-- Python truthiness of the categorizer's dict reply restricted to its two
recognised keys: a dict with no key is falsy, any present key makes it truthy
(the `if categorized_and_normalized:` test, line 246). -/
def catTruthy (c : CategorizedSet) : Bool :=
  c.pantry.isSome || c.perishables.isSome

/-- The "Generate Grocery List" handler (src/app.py lines 199-279), as a
function of the per-dish oracle results (for the valid dishes, in order) and
the categorizer's reply (`none` when `call_gemini_api` returned `None`).
No valid dish → warning and no list; empty accumulator after the loop →
"No ingredients could be extracted"; falsy categorizer reply → "Failed to
categorize"; otherwise the aggregated list is produced. -/
def generate_grocery_list (dishes : List DishResult)
    (cat : Option CategorizedSet) : RunOutcome :=
  if dishes.isEmpty then .emptyInput
  else if (accumulate dishes).isEmpty then .noIngredients
  else
    match cat with
    | none => .categorizationFailed
    | some c => if catTruthy c then .done (aggregate_ingredients c) else .categorizationFailed

/-- An ingredient object as the Python code really receives it: a dict in
which either key may be absent (access then raises `KeyError`). -/
structure PyEntry where
  item : Option String
  quantity : Option String
deriving DecidableEq

/-- Projection of a well-formed raw entry to its two string fields. -/
def pyProj (e : PyEntry) : IngredientEntry :=
  { item := e.item.getD "", quantity := e.quantity.getD "" }

/-- A categorizer reply before any shape assumption on its entries. -/
structure PyCategorizedSet where
  pantry : Option (List PyEntry)
  perishables : Option (List PyEntry)
deriving DecidableEq

/-- The loop body of `aggregate_ingredients` with Python's `KeyError`
made explicit: `item['item']` and `item['quantity']` are both read on every
iteration (lines 133-138), so a missing field aborts with an error. -/
def aggStepChecked (m : List (String × String)) (e : PyEntry) :
    Option (List (String × String)) :=
  match e.item, e.quantity with
  | some it, some q =>
    match lookupAssoc m (pyLower it) with
    | some v => some (replaceAssoc m (pyLower it) (v ++ " + " ++ q))
    | none => some (m ++ [(pyLower it, q)])
  | _, _ => none

/-- The bucket loop with `KeyError` propagation. -/
def foldChecked (m : List (String × String)) :
    List PyEntry → Option (List (String × String))
  | [] => some m
  | e :: es =>
    match aggStepChecked m e with
    | some m2 => foldChecked m2 es
    | none => none

/-- `aggregate_ingredients` on raw dict input, `none` standing for an
uncaught `KeyError` escaping the function. -/
def aggregate_ingredients_py (c : PyCategorizedSet) : Option AggregatedSet :=
  match foldChecked [] (c.pantry.getD []), foldChecked [] (c.perishables.getD []) with
  | some mp, some mq =>
    some { pantry := mp.map fun kv => { item := pyTitle kv.1, quantity := kv.2 }
           perishables := mq.map fun kv => { item := pyTitle kv.1, quantity := kv.2 } }
  | _, _ => none

/-- Field-wise projection of a raw categorizer reply. -/
def projCategorized (c : PyCategorizedSet) : CategorizedSet :=
  { pantry := c.pantry.map (List.map pyProj)
    perishables := c.perishables.map (List.map pyProj) }

/-- Reading an `AggregatedSet` back as Aggregator input (both buckets present). -/
def asCategorized (a : AggregatedSet) : CategorizedSet :=
  { pantry := some a.pantry, perishables := some a.perishables }

/-- Modelled from the spec (§4.3, "Output ordering follows first-occurrence
order of each merge key"): the distinct members of a list in order of first
occurrence, relative to an already-seen set.  This is the spec-side yardstick
the Aggregator's output order is compared against. -/
def firstOccurrenceKeys (seen : List String) : List String → List String
  | [] => []
  | k :: ks =>
    if k ∈ seen then firstOccurrenceKeys seen ks
    else k :: firstOccurrenceKeys (k :: seen) ks

/-- All keys of an accumulator are already lower-cased (they arise as
`item['item'].lower()`). -/
def LoweredKeys (m : List (String × String)) : Prop :=
  ∀ k ∈ m.map Prod.fst, pyLower k = k

theorem toNat_ofNat_of_lt {n : Nat} (h : n < 55296) : (Char.ofNat n).toNat = n := by
  have hv : n.isValidChar := Or.inl h
  simp only [Char.ofNat, dif_pos hv]
  simp [Char.ofNatAux, Char.toNat, UInt32.toNat]

theorem ne_char_of_ascii {c : Char} (h : c.toNat < 128) {d : Char}
    (hd : 128 ≤ d.toNat) : c ≠ d := by
  intro he
  subst he
  omega

theorem pyLowerCharF_eq_self {d : Char} (h1 : ¬(65 ≤ d.toNat ∧ d.toNat ≤ 90))
    (h2 : d ≠ 'É') : pyLowerCharF d = [d] := by
  unfold pyLowerCharF
  rw [if_neg h1, if_neg h2]

theorem bind_lowerF_lowerF (c : Char) :
    (pyLowerCharF c).flatMap pyLowerCharF = pyLowerCharF c := by
  by_cases h1 : 65 ≤ c.toNat ∧ c.toNat ≤ 90
  · have hc : pyLowerCharF c = [Char.ofNat (c.toNat + 32)] := by
      unfold pyLowerCharF
      rw [if_pos h1]
    have ht : (Char.ofNat (c.toNat + 32)).toNat = c.toNat + 32 :=
      toNat_ofNat_of_lt (by omega)
    have hfix : pyLowerCharF (Char.ofNat (c.toNat + 32))
        = [Char.ofNat (c.toNat + 32)] :=
      pyLowerCharF_eq_self (by rw [ht]; omega)
        (ne_char_of_ascii (by rw [ht]; omega) (by decide))
    rw [hc]
    simp [hfix]
  · by_cases h2 : c = 'É'
    · subst h2
      decide
    · have hc : pyLowerCharF c = [c] := pyLowerCharF_eq_self h1 h2
      rw [hc]
      simp [hc]

theorem bind_lowerF_titleF_ascii {c : Char} (h : c.toNat < 128) :
    (pyTitleCharF c).flatMap pyLowerCharF = pyLowerCharF c := by
  by_cases h1 : 97 ≤ c.toNat ∧ c.toNat ≤ 122
  · have htc : pyTitleCharF c = [Char.ofNat (c.toNat - 32)] := by
      unfold pyTitleCharF
      rw [if_pos h1]
    have ht : (Char.ofNat (c.toNat - 32)).toNat = c.toNat - 32 :=
      toNat_ofNat_of_lt (by omega)
    have hup : pyLowerCharF (Char.ofNat (c.toNat - 32))
        = [Char.ofNat ((Char.ofNat (c.toNat - 32)).toNat + 32)] := by
      unfold pyLowerCharF
      rw [if_pos (by rw [ht]; omega)]
    have hcl : pyLowerCharF c = [c] :=
      pyLowerCharF_eq_self (by omega) (ne_char_of_ascii h (by decide))
    have h32 : c.toNat - 32 + 32 = c.toNat := by omega
    rw [htc]
    simp [hup, ht, h32, Char.ofNat_toNat, hcl]
  · have htc : pyTitleCharF c = [c] := by
      unfold pyTitleCharF
      rw [if_neg h1, if_neg (ne_char_of_ascii h (by decide)),
        if_neg (ne_char_of_ascii h (by decide)),
        if_neg (ne_char_of_ascii h (by decide))]
    rw [htc]
    simp

theorem bind_lowerF_idem (cs : List Char) :
    (cs.flatMap pyLowerCharF).flatMap pyLowerCharF = cs.flatMap pyLowerCharF := by
  induction cs with
  | nil => rfl
  | cons c cs ih =>
    simp only [List.flatMap_cons, List.flatMap_append, ih, bind_lowerF_lowerF]

theorem pyLower_idem (s : String) : pyLower (pyLower s) = pyLower s := by
  show String.mk ((s.data.flatMap pyLowerCharF).flatMap pyLowerCharF)
      = String.mk (s.data.flatMap pyLowerCharF)
  rw [bind_lowerF_idem]

theorem bind_lowerF_pyTitleChars_ascii (cs : List Char)
    (h : ∀ c ∈ cs, c.toNat < 128) :
    ∀ b : Bool, (pyTitleChars b cs).flatMap pyLowerCharF = cs.flatMap pyLowerCharF := by
  induction cs with
  | nil =>
    intro b
    rfl
  | cons c cs ih =>
    intro b
    have hc := h c (List.mem_cons_self _ _)
    simp only [pyTitleChars, List.flatMap_append, List.flatMap_cons]
    rw [ih (fun d hd => h d (List.mem_cons_of_mem _ hd))]
    congr 1
    by_cases hcase : isCasedChar c = true
    · rw [if_pos hcase]
      cases b with
      | true =>
        rw [if_pos rfl]
        exact bind_lowerF_lowerF c
      | false =>
        rw [if_neg (by simp)]
        exact bind_lowerF_titleF_ascii hc
    · rw [if_neg hcase]
      simp

theorem pyLower_pyTitle_ascii {s : String} (h : AsciiStr s) :
    pyLower (pyTitle s) = pyLower s := by
  show String.mk ((pyTitleChars false s.data).flatMap pyLowerCharF)
      = String.mk (s.data.flatMap pyLowerCharF)
  rw [bind_lowerF_pyTitleChars_ascii s.data h false]

theorem pyLower_pyTitle_of_lowered_ascii {k : String} (hl : pyLower k = k)
    (ha : AsciiStr k) : pyLower (pyTitle k) = k := by
  rw [pyLower_pyTitle_ascii ha, hl]

theorem lowerF_ascii {c : Char} (h : c.toNat < 128) :
    ∀ d ∈ pyLowerCharF c, d.toNat < 128 := by
  intro d hd
  unfold pyLowerCharF at hd
  by_cases h1 : 65 ≤ c.toNat ∧ c.toNat ≤ 90
  · rw [if_pos h1] at hd
    rw [List.mem_singleton] at hd
    subst hd
    rw [toNat_ofNat_of_lt (by omega)]
    omega
  · rw [if_neg h1, if_neg (ne_char_of_ascii h (by decide))] at hd
    rw [List.mem_singleton] at hd
    subst hd
    exact h

theorem pyLower_ascii {s : String} (h : AsciiStr s) : AsciiStr (pyLower s) := by
  intro d hd
  have hd2 : d ∈ s.data.flatMap pyLowerCharF := hd
  obtain ⟨c, hc, hdc⟩ := List.mem_flatMap.mp hd2
  exact lowerF_ascii (h c hc) d hdc

theorem lookupAssoc_eq_none {m : List (String × String)} {key : String} :
    lookupAssoc m key = none ↔ key ∉ m.map Prod.fst := by
  induction m with
  | nil => simp [lookupAssoc]
  | cons kv rest ih =>
    obtain ⟨k, v⟩ := kv
    simp only [lookupAssoc, List.map_cons, List.mem_cons]
    by_cases h : k = key
    · subst h
      simp
    · simp only [if_neg h, ih]
      constructor
      · intro hn
        rintro (rfl | hm)
        · exact h rfl
        · exact hn hm
      · intro hn hm
        exact hn (Or.inr hm)

theorem keysOf_replaceAssoc (m : List (String × String)) (key q : String) :
    (replaceAssoc m key q).map Prod.fst = m.map Prod.fst := by
  induction m with
  | nil => rfl
  | cons kv rest ih =>
    obtain ⟨k, v⟩ := kv
    simp only [replaceAssoc]
    by_cases h : k = key
    · simp [h]
    · simp [h, ih]

theorem keysOf_aggStep (m : List (String × String)) (e : IngredientEntry) :
    (aggStep m e).map Prod.fst =
      if pyLower e.item ∈ m.map Prod.fst then m.map Prod.fst
      else m.map Prod.fst ++ [pyLower e.item] := by
  unfold aggStep
  cases hlk : lookupAssoc m (pyLower e.item) with
  | none =>
    rw [if_neg (lookupAssoc_eq_none.mp hlk)]
    simp
  | some v =>
    have hm : pyLower e.item ∈ m.map Prod.fst := by
      by_contra hmem
      rw [lookupAssoc_eq_none.mpr hmem] at hlk
      exact Option.noConfusion hlk
    rw [keysOf_replaceAssoc, if_pos hm]

theorem fold_aggStep_inv (es : List IngredientEntry) (m : List (String × String))
    (h1 : LoweredKeys m) (h2 : (m.map Prod.fst).Nodup) :
    LoweredKeys (es.foldl aggStep m) ∧ ((es.foldl aggStep m).map Prod.fst).Nodup := by
  induction es generalizing m with
  | nil => exact ⟨h1, h2⟩
  | cons e es ih =>
    simp only [List.foldl_cons]
    by_cases hmem : pyLower e.item ∈ m.map Prod.fst
    · refine ih _ ?_ ?_
      · intro k hk
        rw [keysOf_aggStep, if_pos hmem] at hk
        exact h1 k hk
      · rw [keysOf_aggStep, if_pos hmem]
        exact h2
    · refine ih _ ?_ ?_
      · intro k hk
        rw [keysOf_aggStep, if_neg hmem, List.mem_append, List.mem_singleton] at hk
        rcases hk with hk | rfl
        · exact h1 k hk
        · exact pyLower_idem e.item
      · rw [keysOf_aggStep, if_neg hmem]
        simp only [List.nodup_append, List.nodup_cons, List.not_mem_nil,
          not_false_iff, List.nodup_nil, and_true, true_and]
        exact ⟨h2, by simpa using fun hx => hmem hx⟩

theorem firstOccurrenceKeys_congr (l s1 s2 : List String)
    (h : ∀ x, x ∈ s1 ↔ x ∈ s2) :
    firstOccurrenceKeys s1 l = firstOccurrenceKeys s2 l := by
  induction l generalizing s1 s2 with
  | nil => rfl
  | cons k ks ih =>
    simp only [firstOccurrenceKeys]
    by_cases hk : k ∈ s1
    · rw [if_pos hk, if_pos ((h k).mp hk), ih _ _ h]
    · rw [if_neg hk, if_neg (fun hx => hk ((h k).mpr hx))]
      congr 1
      refine ih _ _ fun x => ?_
      simp only [List.mem_cons]
      exact or_congr Iff.rfl (h x)

theorem keysOf_foldl_aggStep (es : List IngredientEntry) (m : List (String × String)) :
    (es.foldl aggStep m).map Prod.fst =
      m.map Prod.fst ++
        firstOccurrenceKeys (m.map Prod.fst) (es.map fun e => pyLower e.item) := by
  induction es generalizing m with
  | nil => simp [firstOccurrenceKeys]
  | cons e es ih =>
    simp only [List.foldl_cons, List.map_cons, firstOccurrenceKeys]
    by_cases hmem : pyLower e.item ∈ m.map Prod.fst
    · rw [if_pos hmem, ih, keysOf_aggStep, if_pos hmem]
    · rw [if_neg hmem, ih, keysOf_aggStep, if_neg hmem]
      rw [firstOccurrenceKeys_congr (es.map fun e => pyLower e.item)
        (m.map Prod.fst ++ [pyLower e.item])
        (pyLower e.item :: m.map Prod.fst)
        (fun x => by simp only [List.mem_append, List.mem_cons,
          List.not_mem_nil, or_false]; exact or_comm)]
      simp

theorem mem_firstOccurrenceKeys {x : String} {ks seen : List String}
    (h : x ∈ firstOccurrenceKeys seen ks) : x ∈ ks ∧ x ∉ seen := by
  induction ks generalizing seen with
  | nil => simp [firstOccurrenceKeys] at h
  | cons a ks ih =>
    simp only [firstOccurrenceKeys] at h
    by_cases ha : a ∈ seen
    · rw [if_pos ha] at h
      have := ih h
      exact ⟨List.mem_cons_of_mem a this.1, this.2⟩
    · rw [if_neg ha] at h
      rcases List.mem_cons.mp h with rfl | hm
      · exact ⟨List.mem_cons_self x ks, ha⟩
      · have := ih hm
        refine ⟨List.mem_cons_of_mem a this.1, fun hx => this.2 ?_⟩
        exact List.mem_cons_of_mem a hx

theorem nodup_firstOccurrenceKeys (ks seen : List String) :
    (firstOccurrenceKeys seen ks).Nodup := by
  induction ks generalizing seen with
  | nil => exact List.nodup_nil
  | cons a ks ih =>
    simp only [firstOccurrenceKeys]
    by_cases ha : a ∈ seen
    · rw [if_pos ha]
      exact ih seen
    · rw [if_neg ha]
      refine List.nodup_cons.mpr ⟨fun hm => ?_, ih (a :: seen)⟩
      exact (mem_firstOccurrenceKeys hm).2 (List.mem_cons_self a seen)

theorem count_firstOccurrenceKeys (k : String) (ks seen : List String) :
    (firstOccurrenceKeys seen ks).count k =
      if k ∈ ks ∧ k ∉ seen then 1 else 0 := by
  induction ks generalizing seen with
  | nil => simp [firstOccurrenceKeys]
  | cons a ks ih =>
    simp only [firstOccurrenceKeys]
    by_cases ha : a ∈ seen
    · rw [if_pos ha, ih]
      by_cases hk : k = a
      · subst hk
        simp [ha]
      · simp [List.mem_cons, hk]
    · rw [if_neg ha]
      by_cases hk : k = a
      · subst hk
        rw [List.count_cons_self, ih]
        have h1 : ¬(k ∈ ks ∧ k ∉ k :: seen) := fun h => h.2 (List.mem_cons_self k seen)
        rw [if_neg h1, if_pos ⟨List.mem_cons_self k ks, ha⟩]
      · rw [List.count_cons_of_ne hk, ih]
        have h2 : (k ∈ ks ∧ k ∉ a :: seen) ↔ (k ∈ a :: ks ∧ k ∉ seen) := by
          simp only [List.mem_cons, hk, false_or]
        rw [if_congr h2 rfl rfl]

theorem fold_aggStep_ascii (es : List IngredientEntry) :
    ∀ m : List (String × String),
      (∀ e ∈ es, AsciiStr e.item) →
      (∀ k ∈ m.map Prod.fst, AsciiStr k) →
      ∀ k ∈ (es.foldl aggStep m).map Prod.fst, AsciiStr k := by
  induction es with
  | nil =>
    intro m _ hm
    exact hm
  | cons e es ih =>
    intro m hes hm
    simp only [List.foldl_cons]
    refine ih _ (fun e' he' => hes e' (List.mem_cons_of_mem _ he')) ?_
    intro k hk
    rw [keysOf_aggStep] at hk
    by_cases hmem : pyLower e.item ∈ m.map Prod.fst
    · rw [if_pos hmem] at hk
      exact hm k hk
    · rw [if_neg hmem, List.mem_append, List.mem_singleton] at hk
      rcases hk with hk | rfl
      · exact hm k hk
      · exact pyLower_ascii (hes e (List.mem_cons_self _ _))

theorem aggregate_bucket_items (l : List IngredientEntry) :
    (aggregate_bucket l).map (fun e => e.item) =
      (firstOccurrenceKeys [] (l.map fun e => pyLower e.item)).map pyTitle := by
  unfold aggregate_bucket
  rw [List.map_map]
  have h1 : ((fun e : IngredientEntry => e.item) ∘ fun kv : String × String =>
      ({ item := pyTitle kv.1, quantity := kv.2 } : IngredientEntry))
      = pyTitle ∘ Prod.fst := rfl
  rw [h1, ← List.map_map, keysOf_foldl_aggStep]
  simp

theorem aggregate_bucket_keys_ascii (l : List IngredientEntry)
    (hl : ∀ e ∈ l, AsciiStr e.item) :
    (aggregate_bucket l).map (fun e => pyLower e.item) =
      firstOccurrenceKeys [] (l.map fun e => pyLower e.item) := by
  have hinv := fold_aggStep_inv l [] (fun k hk => by simp at hk) (by simp)
  have hascii := fold_aggStep_ascii l [] hl (fun k hk => by simp at hk)
  have h1 : (aggregate_bucket l).map (fun e => pyLower e.item)
      = (l.foldl aggStep []).map Prod.fst := by
    unfold aggregate_bucket
    rw [List.map_map]
    refine List.map_congr_left fun kv hkv => ?_
    exact pyLower_pyTitle_of_lowered_ascii
      (hinv.1 kv.1 (List.mem_map_of_mem Prod.fst hkv))
      (hascii kv.1 (List.mem_map_of_mem Prod.fst hkv))
  rw [h1, keysOf_foldl_aggStep]
  simp

theorem aggregate_bucket_lower_nodup_ascii (l : List IngredientEntry)
    (hl : ∀ e ∈ l, AsciiStr e.item) :
    ((aggregate_bucket l).map fun e => pyLower e.item).Nodup := by
  rw [aggregate_bucket_keys_ascii l hl]
  exact nodup_firstOccurrenceKeys _ _

theorem foldl_aggStep_of_lowered_nodup (m0 : List (String × String)) :
    ∀ acc : List (String × String),
      (∀ k ∈ m0.map Prod.fst, pyLower (pyTitle k) = k) →
      ((acc.map Prod.fst ++ m0.map Prod.fst).Nodup) →
      (m0.map fun kv =>
          ({ item := pyTitle kv.1, quantity := kv.2 } : IngredientEntry)).foldl
        aggStep acc = acc ++ m0 := by
  induction m0 with
  | nil =>
    intro acc _ _
    simp
  | cons kv rest ih =>
    intro acc hl hnd
    obtain ⟨k, v⟩ := kv
    simp only [List.map_cons, List.foldl_cons]
    have hk : pyLower (pyTitle k) = k := hl k (by simp)
    have hknot : k ∉ acc.map Prod.fst := by
      intro hx
      rw [List.nodup_append] at hnd
      exact hnd.2.2 hx (by simp)
    have hstep : aggStep acc { item := pyTitle k, quantity := v }
        = acc ++ [(k, v)] := by
      unfold aggStep
      rw [show ({ item := pyTitle k, quantity := v } : IngredientEntry).item
        = pyTitle k from rfl, hk, lookupAssoc_eq_none.mpr hknot]
    have hnd2 : ((acc ++ [(k, v)]).map Prod.fst ++ rest.map Prod.fst).Nodup := by
      have heq : (acc ++ [(k, v)]).map Prod.fst ++ rest.map Prod.fst
          = acc.map Prod.fst ++ ((k, v) :: rest).map Prod.fst := by
        simp
      rw [heq]
      exact hnd
    rw [hstep, ih (acc ++ [(k, v)]) (fun k' hk' => hl k' (by simp [hk'])) hnd2]
    simp

theorem aggStepChecked_eq (m : List (String × String)) (it q : String) :
    aggStepChecked m { item := some it, quantity := some q }
      = some (aggStep m { item := it, quantity := q }) := by
  simp only [aggStepChecked, aggStep]
  cases lookupAssoc m (pyLower it) <;> rfl

theorem foldChecked_eq (es : List PyEntry) :
    ∀ m : List (String × String),
      (∀ e ∈ es, e.item.isSome ∧ e.quantity.isSome) →
      foldChecked m es = some ((es.map pyProj).foldl aggStep m) := by
  induction es with
  | nil =>
    intro m _
    rfl
  | cons e es ih =>
    intro m h
    obtain ⟨oi, oq⟩ := e
    have he := h _ (List.mem_cons_self _ _)
    cases oi with
    | none => simp at he
    | some it =>
      cases oq with
      | none => simp at he
      | some q =>
        have hproj : pyProj { item := some it, quantity := some q }
            = { item := it, quantity := q } := rfl
        simp only [List.map_cons, List.foldl_cons, hproj, foldChecked,
          aggStepChecked_eq]
        exact ih _ fun e' he' => h e' (List.mem_cons_of_mem _ he')

theorem aggregate_bucket_idem_ascii (l : List IngredientEntry)
    (hl : ∀ e ∈ l, AsciiStr e.item) :
    aggregate_bucket (aggregate_bucket l) = aggregate_bucket l := by
  have hinv := fold_aggStep_inv l [] (fun k hk => by simp at hk) (by simp)
  have hascii := fold_aggStep_ascii l [] hl (fun k hk => by simp at hk)
  unfold aggregate_bucket
  rw [foldl_aggStep_of_lowered_nodup (l.foldl aggStep []) []
    (fun k hk => pyLower_pyTitle_of_lowered_ascii (hinv.1 k hk) (hascii k hk))
    (by simpa using hinv.2)]
  simp

theorem generate_grocery_list_some (dishes : List DishResult)
    (c : CategorizedSet) (hd : dishes ≠ []) (hacc : accumulate dishes ≠ []) :
    generate_grocery_list dishes (some c) =
      if catTruthy c = true then RunOutcome.done (aggregate_ingredients c)
      else RunOutcome.categorizationFailed := by
  unfold generate_grocery_list
  rw [if_neg (by simp [List.isEmpty_iff, hd]),
    if_neg (by simp [List.isEmpty_iff, hacc])]

theorem generate_grocery_list_none (dishes : List DishResult)
    (hd : dishes ≠ []) (hacc : accumulate dishes ≠ []) :
    generate_grocery_list dishes none = RunOutcome.categorizationFailed := by
  unfold generate_grocery_list
  rw [if_neg (by simp [List.isEmpty_iff, hd]),
    if_neg (by simp [List.isEmpty_iff, hacc])]

theorem accumulate_eq_nil_of_all_failed (ds : List DishResult)
    (h : ∀ d ∈ ds, d = DishResult.recipeFailed) : accumulate ds = [] := by
  induction ds with
  | nil => rfl
  | cons d ds ih =>
    have hd1 := h d (List.mem_cons_self _ _)
    subst hd1
    show dishContribution DishResult.recipeFailed ++ accumulate ds = []
    rw [ih fun x hx => h x (List.mem_cons_of_mem _ hx)]
    rfl

/-- Claim C1 counterexample: the items `"ﬁlet"` and `"filet"` make two
distinct merge keys (Python `lower` keeps `ﬁ`), yet `title` maps both keys to
`"Filet"`, so the output bucket holds two entries whose items are equal — even
literally, not only case-insensitively — refuting the claimed invariant. -/
theorem claim_C1_counterexample :
    ¬ (((aggregate_ingredients
        { pantry := some [{ item := "ﬁlet", quantity := "1" },
                          { item := "filet", quantity := "2" }],
          perishables := some [] }).pantry.map
        fun e => pyLower e.item).Nodup) := by
  decide

/-- Claim C1 as amended: for buckets whose item strings are ASCII, each output
bucket of `aggregate_ingredients` contains no two entries whose `item` values
are equal under case-insensitive comparison (the lower-cased output items are
duplicate-free); outside ASCII, Python's full title-casing can collapse two
distinct merge keys to equal display items (`"ß"`/`"ss"` both to `"Ss"`,
`"ﬁlet"`/`"filet"` both to `"Filet"`). -/
theorem claim_C1_amended (c : CategorizedSet)
    (hp : ∀ e ∈ c.pantry.getD [], AsciiStr e.item)
    (hq : ∀ e ∈ c.perishables.getD [], AsciiStr e.item) :
    (((aggregate_ingredients c).pantry.map fun e => pyLower e.item).Nodup) ∧
    (((aggregate_ingredients c).perishables.map fun e => pyLower e.item).Nodup) :=
  ⟨aggregate_bucket_lower_nodup_ascii _ hp, aggregate_bucket_lower_nodup_ascii _ hq⟩

/-- Witness for the amended C1 at a concrete ASCII bucket. -/
theorem claim_C1_amended_witness :
    (((aggregate_ingredients
        { pantry := some [{ item := "Salt", quantity := "1 tsp" },
                          { item := "salt", quantity := "2 tsp" }],
          perishables := some [] }).pantry.map fun e => pyLower e.item).Nodup) ∧
    (((aggregate_ingredients
        { pantry := some [{ item := "Salt", quantity := "1 tsp" },
                          { item := "salt", quantity := "2 tsp" }],
          perishables := some [] }).perishables.map
        fun e => pyLower e.item).Nodup) :=
  claim_C1_amended _ (by decide) (by decide)

/-- Claim C2: a bucket holding exactly `{"Salt","1 tsp"}` then `{"salt","2 tsp"}`
aggregates to the single entry `{"Salt","1 tsp + 2 tsp"}`: the quantities are
concatenated in arrival order with the separator `" + "` and the output item is
the title-cased display form. -/
theorem claim_C2 :
    aggregate_ingredients
        { pantry := some [{ item := "Salt", quantity := "1 tsp" },
                          { item := "salt", quantity := "2 tsp" }],
          perishables := some [] } =
      { pantry := [{ item := "Salt", quantity := "1 tsp + 2 tsp" }],
        perishables := [] } := by
  decide

/-- Claim C3 counterexample: `"salt"` and `" Salt "` differ only by case and by
leading/trailing whitespace, yet `aggregate_ingredients` does not merge them:
the merge key is `item.lower()` with no whitespace stripping, so the two
entries survive as two separate output entries. -/
theorem claim_C3_counterexample :
    aggregate_ingredients
        { pantry := some [{ item := "salt", quantity := "1 tsp" },
                          { item := " Salt ", quantity := "2 tsp" }],
          perishables := some [] } =
      { pantry := [{ item := "Salt", quantity := "1 tsp" },
                   { item := " Salt ", quantity := "2 tsp" }],
        perishables := [] } ∧
    (aggregate_ingredients
        { pantry := some [{ item := "salt", quantity := "1 tsp" },
                          { item := " Salt ", quantity := "2 tsp" }],
          perishables := some [] }).pantry.length = 2 := by
  constructor
  · decide
  · decide

/-- Claim C3 as amended: two entries of the same input bucket merge exactly
when their `item` strings are equal once lower-cased (the merge key is
`item.lower()`, handling case differences of any cased character, e.g. `É`
versus `é`); for every such pair the shared merge key occurs exactly once
among the output's merge keys, and the output lists exactly one entry per
merge key, its item the title-cased key.  Whitespace is not stripped, so items
differing by leading or trailing whitespace are distinct merge keys and are
not merged. -/
theorem claim_C3_amended (l : List IngredientEntry) (e1 e2 : IngredientEntry)
    (h1 : e1 ∈ l) (h2 : e2 ∈ l) (h : pyLower e1.item = pyLower e2.item) :
    (firstOccurrenceKeys [] (l.map fun e => pyLower e.item)).count
        (pyLower e1.item) = 1 ∧
    (aggregate_bucket l).map (fun e => e.item) =
      (firstOccurrenceKeys [] (l.map fun e => pyLower e.item)).map pyTitle := by
  refine ⟨?_, aggregate_bucket_items l⟩
  rw [count_firstOccurrenceKeys]
  exact if_pos ⟨List.mem_map_of_mem _ h1, by simp⟩

/-- Witness for the amended C3 at a concrete merging pair. -/
theorem claim_C3_amended_witness :
    (firstOccurrenceKeys []
        (([{ item := "Salt", quantity := "1 tsp" },
           { item := "salt", quantity := "2 tsp" }] : List IngredientEntry).map
          fun e => pyLower e.item)).count (pyLower "Salt") = 1 ∧
    (aggregate_bucket [{ item := "Salt", quantity := "1 tsp" },
                       { item := "salt", quantity := "2 tsp" }]).map
        (fun e => e.item) =
      (firstOccurrenceKeys []
        (([{ item := "Salt", quantity := "1 tsp" },
           { item := "salt", quantity := "2 tsp" }] : List IngredientEntry).map
          fun e => pyLower e.item)).map pyTitle :=
  claim_C3_amended _ { item := "Salt", quantity := "1 tsp" }
    { item := "salt", quantity := "2 tsp" } (by decide) (by decide) (by decide)

/-- Claim C4 counterexample: with a non-empty accumulator, a categorizer reply
that lacks the `perishables` key but carries a non-empty `pantry` key is truthy,
so the handler does not stop with a categorization failure: it aggregates the
reply (the missing bucket read as empty) and produces a grocery list. -/
theorem claim_C4_counterexample :
    generate_grocery_list
        [DishResult.extracted [{ item := "salt", quantity := "1 tsp" }]]
        (some { pantry := some [{ item := "salt", quantity := "1 tsp" }],
                perishables := none }) =
      RunOutcome.done { pantry := [{ item := "Salt", quantity := "1 tsp" }],
                        perishables := [] } := by
  decide

/-- Claim C4 as amended: after a non-empty accumulation, the run terminates in
a categorization failure exactly when the categorizer call returned `None` or
returned a falsy payload carrying neither bucket; a truthy payload is accepted
even if the `perishables` (or `pantry`) key is missing, the absent bucket is
read as empty, and an aggregated grocery list is still produced. -/
theorem claim_C4_amended (dishes : List DishResult) (cat : Option CategorizedSet)
    (hd : dishes ≠ []) (hne : accumulate dishes ≠ []) :
    ((cat = none ∨ cat = some { pantry := none, perishables := none }) →
      generate_grocery_list dishes cat = RunOutcome.categorizationFailed) ∧
    (∀ c, cat = some c → catTruthy c = true →
      generate_grocery_list dishes cat =
        RunOutcome.done (aggregate_ingredients c)) := by
  constructor
  · rintro (rfl | rfl)
    · exact generate_grocery_list_none dishes hd hne
    · rw [generate_grocery_list_some dishes _ hd hne]
      rfl
  · rintro c rfl hc
    rw [generate_grocery_list_some dishes c hd hne, if_pos hc]

/-- Witness for the amended C4 at a concrete failing reply. -/
theorem claim_C4_amended_witness :
    generate_grocery_list
        [DishResult.extracted [{ item := "salt", quantity := "1 tsp" }]] none
      = RunOutcome.categorizationFailed :=
  (claim_C4_amended _ none (by decide) (by decide)).1 (Or.inl rfl)

/-- Claim C5 counterexample: aggregation is not idempotent.  The bucket
`[{"ß","1"}, {"ss","2"}]` has the two distinct merge keys `"ß"` and `"ss"`
(Python `lower` keeps `ß`), so one aggregation keeps two entries, titled
`"Ss"` and `"Ss"`; re-aggregating lowers both display items to the single key
`"ss"` and merges them into `{"Ss","1 + 2"}`. -/
theorem claim_C5_counterexample :
    aggregate_ingredients (asCategorized (aggregate_ingredients
        { pantry := some [{ item := "ß", quantity := "1" },
                          { item := "ss", quantity := "2" }],
          perishables := some [] })) ≠
      aggregate_ingredients
        { pantry := some [{ item := "ß", quantity := "1" },
                          { item := "ss", quantity := "2" }],
          perishables := some [] } := by
  decide

/-- Claim C5 as amended: aggregation is idempotent on buckets whose item
strings are ASCII: feeding the output of `aggregate_ingredients` back in as a
categorized set returns the very same aggregated set, entries, strings and
order included.  Outside ASCII, Python's full title-casing can collapse
distinct merge keys on the second pass (e.g. `"ß"`/`"ss"`). -/
theorem claim_C5_amended (c : CategorizedSet)
    (hp : ∀ e ∈ c.pantry.getD [], AsciiStr e.item)
    (hq : ∀ e ∈ c.perishables.getD [], AsciiStr e.item) :
    aggregate_ingredients (asCategorized (aggregate_ingredients c)) =
      aggregate_ingredients c := by
  simp only [aggregate_ingredients, asCategorized, Option.getD_some]
  rw [aggregate_bucket_idem_ascii _ hp, aggregate_bucket_idem_ascii _ hq]

/-- Witness for the amended C5 at a concrete ASCII bucket. -/
theorem claim_C5_amended_witness :
    aggregate_ingredients (asCategorized (aggregate_ingredients
        { pantry := some [{ item := "Salt", quantity := "1 tsp" },
                          { item := "salt", quantity := "2 tsp" }],
          perishables := some [] })) =
      aggregate_ingredients
        { pantry := some [{ item := "Salt", quantity := "1 tsp" },
                          { item := "salt", quantity := "2 tsp" }],
          perishables := some [] } :=
  claim_C5_amended _ (by decide) (by decide)

/-- Claim C6: per bucket, the output of `aggregate_ingredients` lists exactly
one entry per distinct merge key, in the order of each key's first occurrence
in the input, regardless of where later duplicates appear: the output item
sequence is exactly the title-cased form of the first occurrences of the
lower-cased input items.  This is a fact of Python's insertion-ordered dict
alone and needs no assumption on the casing of the items. -/
theorem claim_C6 (c : CategorizedSet) :
    ((aggregate_ingredients c).pantry.map fun e => e.item) =
        (firstOccurrenceKeys []
          ((c.pantry.getD []).map fun e => pyLower e.item)).map pyTitle ∧
    ((aggregate_ingredients c).perishables.map fun e => e.item) =
        (firstOccurrenceKeys []
          ((c.perishables.getD []).map fun e => pyLower e.item)).map pyTitle :=
  ⟨aggregate_bucket_items _, aggregate_bucket_items _⟩

/-- Claim C7: an empty input bucket yields an empty output bucket, as a normal
result of the total function `aggregate_ingredients`. -/
theorem claim_C7 (c : CategorizedSet) :
    (c.pantry = some [] → (aggregate_ingredients c).pantry = []) ∧
    (c.perishables = some [] → (aggregate_ingredients c).perishables = []) := by
  constructor
  · intro h
    simp [aggregate_ingredients, h, aggregate_bucket]
  · intro h
    simp [aggregate_ingredients, h, aggregate_bucket]

/-- Witness for C7 at the empty categorized set. -/
theorem claim_C7_witness :
    (aggregate_ingredients { pantry := some [], perishables := some [] }).pantry
        = [] ∧
    (aggregate_ingredients
        { pantry := some [], perishables := some [] }).perishables = [] :=
  ⟨(claim_C7 _).1 rfl, (claim_C7 _).2 rfl⟩

/-- Claim C8: the Aggregator is total and never fails.  Running the loop with
Python's `KeyError` made explicit, any input whose entries all carry both the
`item` and the `quantity` field is aggregated without error, and the result is
exactly the pure function `aggregate_ingredients` on the projected entries. -/
theorem claim_C8 (c : PyCategorizedSet)
    (h : ∀ e ∈ c.pantry.getD [] ++ c.perishables.getD [],
      e.item.isSome ∧ e.quantity.isSome) :
    aggregate_ingredients_py c =
      some (aggregate_ingredients (projCategorized c)) := by
  have hp : ∀ e ∈ c.pantry.getD [], e.item.isSome ∧ e.quantity.isSome :=
    fun e he => h e (List.mem_append_left _ he)
  have hq : ∀ e ∈ c.perishables.getD [], e.item.isSome ∧ e.quantity.isSome :=
    fun e he => h e (List.mem_append_right _ he)
  have hgd : ∀ o : Option (List PyEntry),
      (o.map (List.map pyProj)).getD [] = (o.getD []).map pyProj := by
    intro o
    cases o <;> rfl
  unfold aggregate_ingredients_py
  rw [foldChecked_eq _ _ hp, foldChecked_eq _ _ hq]
  simp [aggregate_ingredients, projCategorized, aggregate_bucket, hgd]

/-- Witness for C8 at a concrete well-formed reply. -/
theorem claim_C8_witness :
    aggregate_ingredients_py
        { pantry := some [{ item := some "salt", quantity := some "1 tsp" }],
          perishables := some [] } =
      some (aggregate_ingredients (projCategorized
        { pantry := some [{ item := some "salt", quantity := some "1 tsp" }],
          perishables := some [] })) :=
  claim_C8 _ (by decide)

/-- Claim C9: no per-dish failure aborts the run: a failed dish contributes no
entries and the loop goes on; the run yields no grocery list exactly when the
accumulator ends empty or the categorization step fails; and when every dish's
recipe resolution fails the run ends with the no-ingredients error. -/
theorem claim_C9 (dishes : List DishResult) (cat : Option CategorizedSet)
    (hd : dishes ≠ []) :
    (∀ d, d = DishResult.recipeFailed ∨ d = DishResult.extractionFailed →
      accumulate (d :: dishes) = accumulate dishes) ∧
    ((∀ d ∈ dishes, d = DishResult.recipeFailed) →
      generate_grocery_list dishes cat = RunOutcome.noIngredients) ∧
    ((∀ a, generate_grocery_list dishes cat ≠ RunOutcome.done a) ↔
      (accumulate dishes = [] ∨ cat = none ∨
        ∃ c, cat = some c ∧ catTruthy c = false)) := by
  refine ⟨?_, ?_, ?_⟩
  · rintro d (rfl | rfl)
    · rfl
    · rfl
  · intro hall
    unfold generate_grocery_list
    rw [if_neg (by simp [List.isEmpty_iff, hd]),
      if_pos (by simp [accumulate_eq_nil_of_all_failed dishes hall])]
  · by_cases hacc0 : accumulate dishes = []
    · have hgen : generate_grocery_list dishes cat = RunOutcome.noIngredients := by
        unfold generate_grocery_list
        rw [if_neg (by simp [List.isEmpty_iff, hd]), if_pos (by simp [hacc0])]
      rw [hgen]
      simp [hacc0]
    · cases cat with
      | none =>
        rw [generate_grocery_list_none dishes hd hacc0]
        simp
      | some c =>
        rw [generate_grocery_list_some dishes c hd hacc0]
        by_cases hc : catTruthy c = true
        · rw [if_pos hc]
          constructor
          · intro hno
            exact absurd rfl (hno (aggregate_ingredients c))
          · rintro (h | h | ⟨c2, hc2, hf⟩)
            · exact absurd h hacc0
            · exact Option.noConfusion h
            · cases Option.some.inj hc2
              rw [hc] at hf
              exact Bool.noConfusion hf
        · rw [if_neg hc]
          constructor
          · intro _
            exact Or.inr (Or.inr ⟨c, rfl, by simpa using hc⟩)
          · intro _ a hcontra
            exact RunOutcome.noConfusion hcontra

/-- Witness for C9: one dish whose recipe resolution failed ends the run with
the no-ingredients error. -/
theorem claim_C9_witness :
    generate_grocery_list [DishResult.recipeFailed] none
      = RunOutcome.noIngredients :=
  (claim_C9 [DishResult.recipeFailed] none (by decide)).2.1 (by decide)

/-- Claim C10: a missing `pantry` or `perishables` key in the Aggregator's
input dict is read as an empty bucket: no error, and the output still carries
both buckets, the missing one empty and the other aggregated normally. -/
theorem claim_C10 (c : CategorizedSet) :
    (c.pantry = none →
      aggregate_ingredients c =
        { pantry := [],
          perishables := aggregate_bucket (c.perishables.getD []) }) ∧
    (c.perishables = none →
      aggregate_ingredients c =
        { pantry := aggregate_bucket (c.pantry.getD []),
          perishables := [] }) := by
  constructor
  · intro h
    unfold aggregate_ingredients
    rw [h]
    rfl
  · intro h
    unfold aggregate_ingredients
    rw [h]
    rfl

/-- Witness for C10 at the dict carrying neither key. -/
theorem claim_C10_witness :
    aggregate_ingredients { pantry := none, perishables := none } =
      { pantry := [], perishables := [] } :=
  (claim_C10 { pantry := none, perishables := none }).1 rfl

end Grocery
